import Mathlib

/-!
Verification development for the core of an EnOcean-to-MQTT bridge.

The definitions below are shallow embeddings of the Python source under
`src/addon/rootfs/app/`:
  * `core/serial_handler.py`  — ESP3 framing (CRC-8, parse loop, transmit),
    the generic EEP bit-field decoder, and the radio-telegram dispatcher;
  * `core/device_manager.py`  — the device registry and address lookup;
  * `core/mqtt_handler.py`    — state publish / persistence / restore and
    the MQTT command surface;
  * `core/telegram_buffer.py` — the telegram ring buffer and the
    unknown-sender tracker;
  * `core/mapping_manager.py` — the EEP → Home-Assistant entity mappings.

Machine integers are modelled as `Nat` (with explicit masking where the
source masks), Python byte strings as `List Nat`, Python `str` either as
Lean `String` or — where character-level reasoning about `str.upper` is
needed — as `List Nat` of code points, and Python dicts as association
lists with first-key-wins lookup and in-place update.
-/

namespace EnoceanMqtt

/-! ### CRC-8 (serial_handler.py, CRC8_TABLE / crc8) -/

/-- The 256-entry CRC-8 lookup table from `serial_handler.py`. -/
def CRC8_TABLE : List Nat := [
  0x00, 0x07, 0x0e, 0x09, 0x1c, 0x1b, 0x12, 0x15, 0x38, 0x3f, 0x36, 0x31, 0x24, 0x23, 0x2a, 0x2d,
  0x70, 0x77, 0x7e, 0x79, 0x6c, 0x6b, 0x62, 0x65, 0x48, 0x4f, 0x46, 0x41, 0x54, 0x53, 0x5a, 0x5d,
  0xe0, 0xe7, 0xee, 0xe9, 0xfc, 0xfb, 0xf2, 0xf5, 0xd8, 0xdf, 0xd6, 0xd1, 0xc4, 0xc3, 0xca, 0xcd,
  0x90, 0x97, 0x9e, 0x99, 0x8c, 0x8b, 0x82, 0x85, 0xa8, 0xaf, 0xa6, 0xa1, 0xb4, 0xb3, 0xba, 0xbd,
  0xc7, 0xc0, 0xc9, 0xce, 0xdb, 0xdc, 0xd5, 0xd2, 0xff, 0xf8, 0xf1, 0xf6, 0xe3, 0xe4, 0xed, 0xea,
  0xb7, 0xb0, 0xb9, 0xbe, 0xab, 0xac, 0xa5, 0xa2, 0x8f, 0x88, 0x81, 0x86, 0x93, 0x94, 0x9d, 0x9a,
  0x27, 0x20, 0x29, 0x2e, 0x3b, 0x3c, 0x35, 0x32, 0x1f, 0x18, 0x11, 0x16, 0x03, 0x04, 0x0d, 0x0a,
  0x57, 0x50, 0x59, 0x5e, 0x4b, 0x4c, 0x45, 0x42, 0x6f, 0x68, 0x61, 0x66, 0x73, 0x74, 0x7d, 0x7a,
  0x89, 0x8e, 0x87, 0x80, 0x95, 0x92, 0x9b, 0x9c, 0xb1, 0xb6, 0xbf, 0xb8, 0xad, 0xaa, 0xa3, 0xa4,
  0xf9, 0xfe, 0xf7, 0xf0, 0xe5, 0xe2, 0xeb, 0xec, 0xc1, 0xc6, 0xcf, 0xc8, 0xdd, 0xda, 0xd3, 0xd4,
  0x69, 0x6e, 0x67, 0x60, 0x75, 0x72, 0x7b, 0x7c, 0x51, 0x56, 0x5f, 0x58, 0x4d, 0x4a, 0x43, 0x44,
  0x19, 0x1e, 0x17, 0x10, 0x05, 0x02, 0x0b, 0x0c, 0x21, 0x26, 0x2f, 0x28, 0x3d, 0x3a, 0x33, 0x34,
  0x4e, 0x49, 0x40, 0x47, 0x52, 0x55, 0x5c, 0x5b, 0x76, 0x71, 0x78, 0x7f, 0x6a, 0x6d, 0x64, 0x63,
  0x3e, 0x39, 0x30, 0x37, 0x22, 0x25, 0x2c, 0x2b, 0x06, 0x01, 0x08, 0x0f, 0x1a, 0x1d, 0x14, 0x13,
  0xae, 0xa9, 0xa0, 0xa7, 0xb2, 0xb5, 0xbc, 0xbb, 0x96, 0x91, 0x98, 0x9f, 0x8a, 0x8d, 0x84, 0x83,
  0xde, 0xd9, 0xd0, 0xd7, 0xc2, 0xc5, 0xcc, 0xcb, 0xe6, 0xe1, 0xe8, 0xef, 0xfa, 0xfd, 0xf4, 0xf3]

/-- `crc8` from `serial_handler.py`: table-driven CRC-8 over a byte list. -/
def crc8 (data : List Nat) : Nat :=
  data.foldl (fun crc b => CRC8_TABLE.getD (crc ^^^ b) 0) 0

/-! ### ESP3 framer (serial_handler.py, the parse loop of `_read_loop_thread`) -/

def SYNC_BYTE : Nat := 0x55
def PACKET_TYPE_RADIO : Nat := 0x01

/-- A validated ESP3 packet: packet type, data block, optional block. -/
structure Packet where
  ptype : Nat
  pdata : List Nat
  optional : List Nat
deriving DecidableEq

/-- One pass of the ESP3 parse loop of `_read_loop_thread` over a byte
buffer.  Each loop iteration either pops a single byte (hunt for sync /
CRC-mismatch resynchronisation), removes a complete validated frame and
emits its packet, or stops to wait for more data.  `fuel` bounds the
number of iterations; every recursive call strictly shortens the buffer,
so `fuel = buffer.length` runs the loop to completion. -/
def run : Nat → List Nat → List Packet × List Nat
  | _, [] => ([], [])
  | 0, b :: t => ([], b :: t)
  | fuel + 1, b :: t =>
    if (b :: t).length < 6 then ([], b :: t)
    else if b ≠ SYNC_BYTE then run fuel t
    else
      let buf := b :: t
      let dataLen := buf.getD 1 0 * 256 + buf.getD 2 0
      let optLen := buf.getD 3 0
      let ptype := buf.getD 4 0
      let headerCrc := buf.getD 5 0
      if crc8 ((buf.drop 1).take 4) ≠ headerCrc then run fuel t
      else
        let total := 6 + dataLen + optLen + 1
        if buf.length < total then ([], buf)
        else
          let packetData := (buf.drop 6).take dataLen
          let optionalData := (buf.drop (6 + dataLen)).take optLen
          let dataCrc := buf.getD (6 + dataLen + optLen) 0
          if crc8 (packetData ++ optionalData) ≠ dataCrc then run fuel t
          else
            let rest := run fuel (buf.drop total)
            (⟨ptype, packetData, optionalData⟩ :: rest.1, rest.2)

/-- The framer applied to a complete byte stream: emitted packets and the
unconsumed tail of the buffer. -/
def framer (stream : List Nat) : List Packet × List Nat :=
  run stream.length stream

/-! ### Transmit path (serial_handler.py, `send_telegram`) -/

/-- Python `n.to_bytes(4, 'big')` for `n < 2^32`. -/
def toBytes4 (n : Nat) : List Nat :=
  [(n >>> 24) &&& 0xFF, (n >>> 16) &&& 0xFF, (n >>> 8) &&& 0xFF, n &&& 0xFF]

/-- The byte sequence written by `SerialHandler.send_telegram`:
RADIO_ERP1 data block `[rorg] ++ data ++ sender_id(4 be) ++ [0x00]`,
optional block `[0x03] ++ destination(4 be) ++ [0xFF, 0x00]`, wrapped in
an ESP3 frame with header and data CRC-8. -/
def send_telegram_bytes (sender_id rorg : Nat) (data : List Nat) (destination : Nat) : List Nat :=
  let packet_data := rorg :: data ++ toBytes4 sender_id ++ [0x00]
  let optional := 0x03 :: toBytes4 destination ++ [0xFF, 0x00]
  let data_len := packet_data.length
  let optional_len := optional.length
  let header := [(data_len >>> 8) &&& 0xFF, data_len &&& 0xFF, optional_len, PACKET_TYPE_RADIO]
  let header_crc := crc8 header
  let data_crc := crc8 (packet_data ++ optional)
  SYNC_BYTE :: header ++ [header_crc] ++ packet_data ++ optional ++ [data_crc]

/-! ### Python string primitives over code points

`device_manager.py` compares addresses with Python's case-sensitive
`str.startswith` and `str.upper`.  To reason about those character
operations, Python strings are modelled here as lists of Unicode code
points (`'0' = 48`, `'x' = 120`, `'X' = 88`, `'a'..'z' = 97..122`). -/

/-- A Python string as a list of code points. -/
abbrev PyStr := List Nat

/-- `str.upper` on a single ASCII code point. -/
def upperChar (c : Nat) : Nat := if 97 ≤ c ∧ c ≤ 122 then c - 32 else c

/-- `str.upper` over a code-point string. -/
def pyUpper (s : PyStr) : PyStr := s.map upperChar

/-- Python `s.startswith("0x")` (case sensitive): the string has at
least two code points and they are `'0'` and lowercase `'x'`. -/
def startsWith0x : PyStr → Bool
  | c0 :: c1 :: _ => c0 == 48 && c1 == 120
  | _ => false

/-! ### Device registry (device_manager.py) -/

/-- A configured EnOcean device (`Device` dataclass).  The `address` is a
Python string, modelled as code points; the other textual fields are kept
as Lean strings. -/
structure Device where
  name : String
  address : PyStr
  rorg : String
  func : String
  type : String
deriving DecidableEq

/-- `device.eep_id`: the `"RORG-FUNC-TYPE"` identifier string. -/
def Device.eep_id (d : Device) : String := d.rorg ++ "-" ++ d.func ++ "-" ++ d.type

/-- The query-side address normalisation performed by
`DeviceManager.get_device_by_address`: prepend `0x` when missing, then
uppercase. -/
def normalizeQuery (address : PyStr) : PyStr :=
  pyUpper (if startsWith0x address then address else 48 :: 120 :: address)

/-- The stored-side address normalisation performed inside the lookup
loop of `get_device_by_address`: uppercase first, then prepend `0x` when
the uppercased form does not start with (lowercase) `0x`. -/
def normalizeStored (address : PyStr) : PyStr :=
  let u := pyUpper address
  if startsWith0x u then u else 48 :: 120 :: u

/-- `DeviceManager.get_device_by_address`: first device (in registry
insertion order) whose normalised stored address equals the normalised
query. -/
def get_device_by_address (devices : List Device) (address : PyStr) : Option Device :=
  devices.find? (fun d => normalizeStored d.address == normalizeQuery address)

/-! ### JSON-ish values and Python dicts -/

/-- A JSON-style value as held in decoded telegrams and state snapshots. -/
inductive JVal where
  | s (v : String)
  | i (v : Int)
  | q (v : ℚ)
  | b (v : Bool)
deriving DecidableEq

/-- A Python dict as an association list with unique keys maintained by
`dictSet`. -/
abbrev Dict (α : Type) := List (String × α)

/-- Python `d[k] = v`: replace the value at an existing key in place,
else append the new binding at the end. -/
def dictSet {α : Type} (m : Dict α) (k : String) (v : α) : Dict α :=
  if m.any (fun p => p.1 == k) then
    m.map (fun p => if p.1 == k then (p.1, v) else p)
  else m ++ [(k, v)]

/-! ### Hex rendering helpers -/

/-- Upper-case hex digit of a value `< 16`. -/
def hexDigit (n : Nat) : Char := if n < 10 then Char.ofNat (48 + n) else Char.ofNat (55 + n)

/-- Python `bytes.hex().upper()` over a byte list. -/
def hexUpper (data : List Nat) : String :=
  String.mk (data.foldr (fun b acc => hexDigit (b / 16 % 16) :: hexDigit (b % 16) :: acc) [])

/-- Python `f"0x{n:08X}"` as a Lean string. -/
def senderHexS (n : Nat) : String :=
  String.mk ('0' :: 'x' :: (List.range 8).map (fun i => hexDigit (n / 16 ^ (7 - i) % 16)))

/-- Python `f"0x{n:08X}"` as code points (the form handed to
`get_device_by_address` by the dispatcher). -/
def senderHexP (n : Nat) : PyStr :=
  48 :: 120 :: (List.range 8).map (fun i => (hexDigit (n / 16 ^ (7 - i) % 16)).toNat)

/-! ### Generic EEP bit-field decoder (serial_handler.py, `_decode_telegram`) -/

/-- A field descriptor as consumed by `_decode_telegram` via
`field.get(...)`: shortcut, bit offset, bit size, kind string, enum
items `(value, description)` with the value already in its string form,
and the `value`-kind raw/scale ranges. -/
structure EEPField where
  shortcut : String
  offset : Nat
  size : Nat
  ftype : String
  values : List (String × String)
  scale_min : ℚ
  scale_max : ℚ
  range_min : ℚ
  range_max : ℚ
deriving DecidableEq

/-- Big-endian integer of a byte list (`int.from_bytes(data, 'big')`). -/
def intFromBytes (data : List Nat) : Nat :=
  data.foldl (fun acc b => acc * 256 + b) 0

/-- Python `round(x, 2)` idealised over the rationals. -/
def round2 (x : ℚ) : ℚ := (round (x * 100) : ℤ) / 100

/-- The bit extraction of `_decode_telegram`:
`raw_value = (data_int >> (data_bits - offset - size)) & ((1 << size) - 1)`. -/
def rawOf (dataInt dataBits : Nat) (f : EEPField) : Nat :=
  (dataInt >>> (dataBits - f.offset - f.size)) &&& ((1 <<< f.size) - 1)

/-- The scaling of a `value`-kind field:
`scale_min + (raw - min) * (scale_max - scale_min) / (max - min)`. -/
def scaledOf (raw : Nat) (f : EEPField) : ℚ :=
  f.scale_min + ((raw : ℚ) - f.range_min) * (f.scale_max - f.scale_min) /
    (f.range_max - f.range_min)

/-- Decoding of a single field into the accumulated dict — the body of
the `for field in profile.fields` loop of `_decode_telegram`.  A field
whose `offset + size` exceeds the payload bits (negative `shift` in the
source) is skipped. -/
def decodeField (dataInt dataBits : Nat) (dec : Dict JVal) (f : EEPField) : Dict JVal :=
  if dataBits < f.offset + f.size then dec
  else if f.ftype = "enum" then
    match f.values.find? (fun v => v.1 == toString (rawOf dataInt dataBits f)) with
    | some v =>
      dictSet (dictSet dec f.shortcut (.i (rawOf dataInt dataBits f)))
        (f.shortcut ++ "_text") (.s v.2)
    | none => dictSet dec f.shortcut (.i (rawOf dataInt dataBits f))
  else if f.ftype = "value" then
    if f.range_max ≠ f.range_min then
      dictSet dec f.shortcut (.q (round2 (scaledOf (rawOf dataInt dataBits f) f)))
    else dictSet dec f.shortcut (.i (rawOf dataInt dataBits f))
  else dictSet dec f.shortcut (.i (rawOf dataInt dataBits f))

/-- `SerialHandler._decode_telegram`: seed the dict with `sender_id` and
`rssi`; with no fields add only the raw hex payload; otherwise decode
each field in order, skipping fields that do not fit the payload. -/
def decode_telegram (payload : List Nat) (senderHex : String) (dbm : Int)
    (fields : List EEPField) : Dict JVal :=
  let decoded : Dict JVal := [("sender_id", .s senderHex), ("rssi", .i dbm)]
  if fields.isEmpty then decoded ++ [("raw", .s (hexUpper payload))]
  else
    let dataInt := intFromBytes payload
    let dataBits := payload.length * 8
    fields.foldl (decodeField dataInt dataBits) decoded

/-! ### MQTT handler (mqtt_handler.py) -/

/-- Observable effects of the MQTT handler and the dispatcher. -/
inductive Ev where
  /-- `self._client.publish(topic, json.dumps(payload), retain=retain)` on a dict payload. -/
  | publish (topic : String) (payload : Dict JVal) (retain : Bool)
  /-- The warn log `"MQTT not connected, message not sent"`. -/
  | warnNotConnected
  /-- `_save_states`: the cache file is rewritten with this content. -/
  | saveFile (content : Dict (Dict JVal))
  /-- The teach-in callback firing with `(sender_hex, rorg_hex, func, type, dbm)`. -/
  | teachIn (senderHex : String) (rorgHex : String) (func : String) (type : String) (dbm : Int)
  /-- One registered telegram callback being invoked. -/
  | telegramCallback (senderHex : String)
deriving DecidableEq

/-- Mutable state of `MQTTHandler` relevant to state caching. -/
structure MqttState where
  connected : Bool
  cache : Dict (Dict JVal)
  file : Option (Dict (Dict JVal))
deriving DecidableEq

/-- `MQTTHandler.publish` on a dict payload: emits the publish when
connected, else only the warn log. -/
def mqttPublish (st : MqttState) (topic : String) (payload : Dict JVal) (retain : Bool) :
    List Ev :=
  if st.connected then [.publish topic payload retain] else [.warnNotConnected]

/-- `MQTTHandler.publish_state`: add `_last_update`, then (when caching
is enabled) replace the in-memory snapshot and rewrite the cache file,
and finally issue the retained publish. -/
def publish_state (pfx : String) (cacheStates : Bool) (now : String) (st : MqttState)
    (deviceName : String) (state : Dict JVal) : MqttState × List Ev :=
  let topic := pfx ++ "/" ++ deviceName ++ "/state"
  let state' := dictSet state "_last_update" (.s now)
  if cacheStates then
    let cache' := dictSet st.cache deviceName state'
    let st' := { st with cache := cache', file := some cache' }
    (st', .saveFile cache' :: mqttPublish st' topic state' true)
  else
    (st, mqttPublish st topic state' true)

/-- `MQTTHandler.load_persisted_states`: when the cache file exists, load
it and republish every entry retained with a `_restored: true` marker. -/
def load_persisted_states (pfx : String) (st : MqttState) : MqttState × List Ev :=
  match st.file with
  | none => (st, [])
  | some stored =>
    let restored := stored.map (fun p => (p.1, dictSet p.2 "_restored" (.b true)))
    let st' := { st with cache := restored }
    (st', (restored.map (fun p =>
      mqttPublish st' (pfx ++ "/" ++ p.1 ++ "/state") p.2 true)).flatten)

/-! ### MQTT command surface (mqtt_handler.py, `_on_message`) -/

/-- Python `topic.split("/")` over code points (`'/' = 47`). -/
def splitSlash : PyStr → List PyStr
  | [] => [[]]
  | c :: rest =>
    if c = 47 then [] :: splitSlash rest
    else
      match splitSlash rest with
      | [] => [[c]]
      | seg :: segs => (c :: seg) :: segs

/-- Python `topic.endswith("/set")` over code points. -/
def endsWithSet (s : PyStr) : Bool :=
  4 ≤ s.length && s.drop (s.length - 4) == [47, 115, 101, 116]

/-- Effects of the `_on_message` callback.  Topic-derived strings are
code-point strings. -/
inductive CmdEv where
  /-- The info log issued by the `_handle_command` stub. -/
  | logCommand (deviceName : PyStr) (payload : String)
  /-- An outbound EnOcean telegram for the named device — what §4.4 of the
  spec requires for a command; declared so its absence can be stated. -/
  | sendTelegram (deviceName : PyStr) (payload : String)
  /-- A warn log for a command naming an unknown device. -/
  | warnUnknownDevice (deviceName : PyStr)
  /-- A registered message callback scheduled with `(topic, payload)`. -/
  | messageCallback (topic : PyStr) (payload : String)
deriving DecidableEq

/-- `MQTTHandler._handle_command`: a stub that only logs the command. -/
def handle_command (deviceName : PyStr) (payload : String) : List CmdEv :=
  [.logCommand deviceName payload]

/-- `MQTTHandler._topic_matches`: segment-wise pattern match with `+`
(code point 43) and `#` (code point 35) wildcards. -/
def topic_matches (pattern topic : PyStr) : Bool :=
  let rec go : List PyStr → List PyStr → Bool
    | [], _ => true
    | _ :: _, [] => false
    | p :: pr, t :: tr =>
      if p == [43] then go pr tr
      else if p == [35] then true
      else if p ≠ t then false
      else go pr tr
  if (splitSlash pattern).length ≠ (splitSlash topic).length then false
  else go (splitSlash pattern) (splitSlash topic)

/-- `MQTTHandler._on_message`: on a `…/set` topic, take the second-to-last
segment as the device name and hand the payload to `_handle_command`;
then schedule every registered callback whose pattern matches. -/
def on_message (patterns : List PyStr) (topic : PyStr) (payload : String) : List CmdEv :=
  (if endsWithSet topic then
    (if (splitSlash topic).length ≥ 2 then
      handle_command ((splitSlash topic).getD ((splitSlash topic).length - 2) []) payload
    else [])
  else []) ++
  (patterns.filter (fun p => topic_matches p topic)).map (fun _ => .messageCallback topic payload)

/-- Whether an effect is one of the command effects §4.4 of the spec
requires of the gateway dispatcher path: an outbound telegram or the
unknown-device warn. -/
def CmdEv.isGatewayCommandEffect : CmdEv → Bool
  | .sendTelegram _ _ => true
  | .warnUnknownDevice _ => true
  | _ => false

/-! ### Mapping manager (mapping_manager.py) -/

/-- A Home-Assistant entity descriptor from the mapping tables. -/
structure HAEntity where
  component : String
  name : String
  device_class : Option String := none
  unit_of_measurement : Option String := none
  icon : Option String := none
  value_template : Option String := none
deriving DecidableEq

/-- A per-EEP mapping: field shortcut → entity descriptor. -/
abbrev Mapping := Dict HAEntity

/-- `str.upper` over a Lean string (ASCII case only, as in the hex EEP
ids this is applied to). -/
def pyUpperS (s : String) : String :=
  String.mk (s.data.map (fun c =>
    if 97 ≤ c.toNat ∧ c.toNat ≤ 122 then Char.ofNat (c.toNat - 32) else c))

/-- `DEFAULT_MAPPINGS` from `mapping_manager.py`. -/
def DEFAULT_MAPPINGS : Dict Mapping := [
  ("A5-02-05", [
    ("TMP", { component := "sensor", name := "Temperature",
              device_class := some "temperature", unit_of_measurement := some "°C",
              value_template := some "\x7b\x7b value_json.TMP \x7d\x7d" })]),
  ("A5-04-01", [
    ("TMP", { component := "sensor", name := "Temperature",
              device_class := some "temperature", unit_of_measurement := some "°C" }),
    ("HUM", { component := "sensor", name := "Humidity",
              device_class := some "humidity", unit_of_measurement := some "%" })]),
  ("A5-07-01", [
    ("PIR", { component := "binary_sensor", name := "Occupancy",
              device_class := some "occupancy" }),
    ("SVC", { component := "sensor", name := "Supply Voltage",
              device_class := some "voltage", unit_of_measurement := some "V" })]),
  ("A5-30-03", [
    ("DI0", { component := "binary_sensor", name := "Input 0", device_class := some "power" }),
    ("DI1", { component := "binary_sensor", name := "Input 1", device_class := some "power" }),
    ("DI2", { component := "binary_sensor", name := "Input 2", device_class := some "power" }),
    ("DI3", { component := "binary_sensor", name := "Input 3", device_class := some "power" })]),
  ("D5-00-01", [
    ("CO", { component := "binary_sensor", name := "Contact", device_class := some "door" })]),
  ("F6-02-01", [
    ("R1", { component := "binary_sensor", name := "Rocker 1", device_class := some "power" }),
    ("R2", { component := "binary_sensor", name := "Rocker 2", device_class := some "power" }),
    ("EB", { component := "binary_sensor", name := "Energy Bow", device_class := some "power" })]),
  ("D2-01-0F", [
    ("CMD", { component := "switch", name := "Switch", icon := some "mdi:power" }),
    ("OV", { component := "sensor", name := "Output Value", unit_of_measurement := some "%" })]),
  ("D2-05-00", [
    ("POS", { component := "cover", name := "Position", device_class := some "blind" }),
    ("ANG", { component := "sensor", name := "Angle", unit_of_measurement := some "°" })])]

/-- `MappingManager.get_mapping`: uppercase the id, return the custom
entry when present, else the default entry, else the empty mapping. -/
def get_mapping (customMappings : Dict Mapping) (eepId : String) : Mapping :=
  let e := pyUpperS eepId
  match customMappings.lookup e with
  | some m => m
  | none =>
    match DEFAULT_MAPPINGS.lookup e with
    | some m => m
    | none => []

/-! ### Telegram ring buffer and unknown-sender tracker (telegram_buffer.py) -/

/-- A stored telegram entry (`TelegramEntry` dataclass). -/
structure TEntry where
  timestamp : String
  sender_id : String
  rorg : String
  data : String
  status : Nat
  dbm : Int
  device_name : Option String
  eep_id : Option String
  decoded : Option (Dict JVal)
  is_teach_in : Bool
deriving DecidableEq

/-- An unknown-sender record as kept in `_unknown_devices`. -/
@[ext]
structure URec where
  sender_id : String
  rorg : String
  first_seen : String
  last_seen : String
  count : Nat
  dbm : Int
deriving DecidableEq

/-- `collections.deque(maxlen := m).append`: append on the right,
discarding from the left beyond the capacity. -/
def dequeAppend {α : Type} (maxlen : Nat) (l : List α) (x : α) : List α :=
  let l' := l ++ [x]
  if maxlen < l'.length then l'.drop (l'.length - maxlen) else l'

/-- Update the first list element satisfying the predicate, leaving the
rest unchanged (the early-returning `for` loop of
`_add_unknown_device`). -/
def updateFirst {α : Type} (p : α → Bool) (f : α → α) : List α → List α
  | [] => []
  | x :: xs => if p x then f x :: xs else x :: updateFirst p f xs

/-- The record update performed when an unknown sender is seen again:
refresh `last_seen`, increment `count`, overwrite `dbm`. -/
def touchURec (now : String) (dbm : Int) (r : URec) : URec :=
  { r with last_seen := now, count := r.count + 1, dbm := dbm }

/-- A fresh unknown-sender record. -/
def freshURec (now sender rorg : String) (dbm : Int) : URec :=
  { sender_id := sender, rorg := rorg, first_seen := now, last_seen := now,
    count := 1, dbm := dbm }

/-- `TelegramBuffer._add_unknown_device`: update the first record with a
matching sender, else append a fresh record to the capacity-50 deque. -/
def add_unknown_device (now : String) (unknown : List URec) (sender rorg : String)
    (dbm : Int) : List URec :=
  if unknown.any (fun r => r.sender_id == sender) then
    updateFirst (fun r => r.sender_id == sender) (touchURec now dbm) unknown
  else dequeAppend 50 unknown (freshURec now sender rorg dbm)

/-- The state of a `TelegramBuffer`. -/
structure TBuf where
  maxSize : Nat
  buffer : List TEntry
  unknown : List URec
deriving DecidableEq

/-- The arguments of one `TelegramBuffer.add` call, together with the
`datetime.now()` timestamp taken during the call. -/
structure AddCall where
  now : String
  sender : String
  rorg : String
  data : String
  status : Nat
  dbm : Int
  device_name : Option String
  eep_id : Option String
  decoded : Option (Dict JVal)
  is_teach_in : Bool
deriving DecidableEq

/-- `TelegramBuffer.add`: store the entry in the ring buffer and, when no
device matched, track the sender in the unknown-device list. -/
def TBuf.add (b : TBuf) (c : AddCall) : TBuf :=
  let entry : TEntry :=
    { timestamp := c.now, sender_id := c.sender, rorg := c.rorg, data := c.data,
      status := c.status, dbm := c.dbm, device_name := c.device_name,
      eep_id := c.eep_id, decoded := c.decoded, is_teach_in := c.is_teach_in }
  let b' := { b with buffer := dequeAppend b.maxSize b.buffer entry }
  if c.device_name.isNone then
    { b' with unknown := add_unknown_device c.now b'.unknown c.sender c.rorg c.dbm }
  else b'

/-- A sequence of `add` calls applied in order. -/
def runAdds (b : TBuf) (calls : List AddCall) : TBuf :=
  calls.foldl TBuf.add b

/-! ### Radio-telegram dispatcher (serial_handler.py, `_process_radio_telegram`) -/

/-- The parsed fields of a `RadioTelegram`. -/
structure RadioTelegram where
  rorg : Nat
  data : List Nat
  sender_id : Nat
  status : Nat
  dbm : Int
deriving DecidableEq

/-- `SerialHandler._is_teach_in`: the LRN-bit test per rorg. -/
def is_teach_in (t : RadioTelegram) : Bool :=
  if t.rorg = 0xF6 then false
  else if t.rorg = 0xD5 then
    if t.data.isEmpty then false else (t.data.getD 0 0) &&& 0x08 == 0
  else if t.rorg = 0xA5 then
    if t.data.length ≥ 4 then (t.data.getD 3 0) &&& 0x08 == 0 else false
  else false

/-- The whole gateway state touched by the dispatcher. -/
structure Gateway where
  mqttPrefix : String
  cacheStates : Bool
  devices : List Device
  profiles : Dict (List EEPField)
  mqtt : MqttState
  tbuf : TBuf
  telegramCallbacks : Nat
  teachInCallbackSet : Bool
deriving DecidableEq

/-- `f"{n:02X}"`. -/
def hex2 (n : Nat) : String := String.mk [hexDigit (n / 16 % 16), hexDigit (n % 16)]

/-- `SerialHandler._handle_teach_in`: fire the teach-in callback, for 4BS
extracting the implicit EEP from the first two payload bytes. -/
def handle_teach_in (g : Gateway) (t : RadioTelegram) : List Ev :=
  let func := if t.rorg = 0xA5 ∧ t.data.length ≥ 4 then (t.data.getD 0 0 >>> 2) &&& 0x3F else 0
  let type := if t.rorg = 0xA5 ∧ t.data.length ≥ 4 then
    ((t.data.getD 0 0 &&& 0x03) <<< 5) ||| ((t.data.getD 1 0 >>> 3) &&& 0x1F) else 0
  if g.teachInCallbackSet then
    [.teachIn (senderHexS t.sender_id) (hex2 t.rorg) (hex2 func) (hex2 type) t.dbm]
  else []

/-- `SerialHandler._process_telegram`: registry lookup, profile lookup,
decode, MQTT publish.  Returns the updated MQTT state, the events, and
the `(device_name, eep_id, decoded)` triple stored in the ring buffer. -/
def process_telegram (now : String) (g : Gateway) (t : RadioTelegram) :
    MqttState × List Ev × (Option String × Option String × Option (Dict JVal)) :=
  match get_device_by_address g.devices (senderHexP t.sender_id) with
  | none => (g.mqtt, [], (none, none, none))
  | some d =>
    match g.profiles.lookup d.eep_id with
    | none => (g.mqtt, [], (some d.name, some d.eep_id, none))
    | some fields =>
      let decoded := decode_telegram t.data (senderHexS t.sender_id) t.dbm fields
      let (mqtt', evs) := publish_state g.mqttPrefix g.cacheStates now g.mqtt d.name decoded
      (mqtt', evs, (some d.name, some d.eep_id, some decoded))

/-- `SerialHandler._process_radio_telegram`: ignore short data blocks,
parse the telegram, run teach-in detection, dispatch, record in the ring
buffer and invoke the registered telegram callbacks. -/
def process_radio_telegram (now : String) (g : Gateway) (data optionalData : List Nat) :
    Gateway × List Ev :=
  if data.length < 6 then (g, [])
  else
    let rorg := data.getD 0 0
    let sender_id := intFromBytes ((data.drop (data.length - 5)).take 4)
    let status := data.getD (data.length - 1) 0
    let payload := (data.drop 1).take (data.length - 6)
    let dbm : Int := if optionalData.length ≥ 5 then -(optionalData.getD 4 0 : Int) else 0
    let t : RadioTelegram :=
      { rorg := rorg, data := payload, sender_id := sender_id, status := status, dbm := dbm }
    let teachEvs := if is_teach_in t then handle_teach_in g t else []
    let (mqtt', pubEvs, resolved) := process_telegram now g t
    let call : AddCall :=
      { now := now, sender := senderHexS t.sender_id, rorg := hex2 t.rorg,
        data := hexUpper t.data, status := t.status, dbm := t.dbm,
        device_name := resolved.1, eep_id := resolved.2.1, decoded := resolved.2.2,
        is_teach_in := is_teach_in t }
    let g' := { g with mqtt := mqtt', tbuf := g.tbuf.add call }
    (g', teachEvs ++ pubEvs ++ List.replicate g.telegramCallbacks
      (.telegramCallback (senderHexS t.sender_id)))

/-! ## Dict lemmas -/

theorem dict_lookup_of_not_any {α : Type} (m : Dict α) (k : String)
    (h : m.any (fun p => p.1 == k) = false) : m.lookup k = none := by
  induction m with
  | nil => rfl
  | cons p rest ih =>
    obtain ⟨a, b⟩ := p
    simp only [List.any_cons, Bool.or_eq_false_iff] at h
    rw [List.lookup_cons]
    have hk : (k == a) = false := by
      have h1 := beq_eq_false_iff_ne.mp h.1
      exact beq_eq_false_iff_ne.mpr (fun e => h1 e.symm)
    rw [hk]
    exact ih h.2

theorem dict_lookup_mapReplace_self {α : Type} (m : Dict α) (k : String) (v : α)
    (h : m.any (fun p => p.1 == k) = true) :
    (m.map (fun p => if p.1 == k then (p.1, v) else p)).lookup k = some v := by
  induction m with
  | nil => simp at h
  | cons p rest ih =>
    obtain ⟨a, b⟩ := p
    rw [List.map_cons]
    by_cases ha : a = k
    · subst ha
      rw [if_pos (by simp : ((a, b).1 == a) = true)]
      exact List.lookup_cons_self
    · have ha' : (a == k) = false := beq_eq_false_iff_ne.mpr ha
      simp only [List.any_cons, ha', Bool.false_or] at h
      rw [if_neg (by simp [ha'] : ¬((a, b).1 == k) = true)]
      rw [List.lookup_cons]
      rw [beq_eq_false_iff_ne.mpr (fun e => ha e.symm)]
      exact ih h

theorem dict_lookup_mapReplace_ne {α : Type} (m : Dict α) (k k' : String) (v : α)
    (hne : k' ≠ k) :
    (m.map (fun p => if p.1 == k then (p.1, v) else p)).lookup k' = m.lookup k' := by
  induction m with
  | nil => rfl
  | cons p rest ih =>
    obtain ⟨a, b⟩ := p
    rw [List.map_cons]
    by_cases ha : a = k
    · subst ha
      rw [if_pos (by simp : ((a, b).1 == a) = true)]
      rw [List.lookup_cons, List.lookup_cons]
      rw [beq_eq_false_iff_ne.mpr hne]
      exact ih
    · rw [if_neg (by simp [beq_eq_false_iff_ne.mpr ha] : ¬((a, b).1 == k) = true)]
      rw [List.lookup_cons, List.lookup_cons]
      cases hk : (k' == a) with
      | true => rfl
      | false => exact ih

/-- Python `m[k] = v` followed by `m[k]` gives back `v`. -/
theorem lookup_dictSet_self {α : Type} (m : Dict α) (k : String) (v : α) :
    (dictSet m k v).lookup k = some v := by
  unfold dictSet
  cases hany : List.any m (fun p => p.1 == k) with
  | true =>
    rw [if_pos rfl]
    exact dict_lookup_mapReplace_self m k v hany
  | false =>
    rw [if_neg (by simp)]
    rw [List.lookup_append, dict_lookup_of_not_any m k hany]
    simp

/-- Python `m[k] = v` leaves every other key unchanged. -/
theorem lookup_dictSet_ne {α : Type} (m : Dict α) (k k' : String) (v : α)
    (hne : k' ≠ k) : (dictSet m k v).lookup k' = m.lookup k' := by
  unfold dictSet
  cases hany : List.any m (fun p => p.1 == k) with
  | true =>
    rw [if_pos rfl]
    exact dict_lookup_mapReplace_ne m k k' v hne
  | false =>
    rw [if_neg (by simp)]
    rw [List.lookup_append]
    have h2 : List.lookup k' [(k, v)] = none := by
      rw [List.lookup_cons, beq_eq_false_iff_ne.mpr hne]
      rfl
    rw [h2]
    cases m.lookup k' <;> rfl

/-! ## C1 — address lookup (device_manager.py) -/

theorem upperChar_ne_x (c : Nat) : upperChar c ≠ 120 := by
  unfold upperChar
  split <;> omega

theorem startsWith0x_pyUpper (s : PyStr) : startsWith0x (pyUpper s) = false := by
  match s with
  | [] => rfl
  | [a] => rfl
  | a :: b :: t =>
    show (upperChar a == 48 && upperChar b == 120) = false
    rw [beq_eq_false_iff_ne.mpr (upperChar_ne_x b)]
    exact Bool.and_false _

theorem normalizeStored_eq (s : PyStr) : normalizeStored s = 48 :: 120 :: pyUpper s := by
  simp only [normalizeStored, startsWith0x_pyUpper, Bool.false_eq_true, if_false]

theorem normalizeQuery_second (s : PyStr) :
    ∃ t : PyStr, normalizeQuery s = 48 :: 88 :: t := by
  unfold normalizeQuery
  cases h : startsWith0x s with
  | false =>
    simp only [Bool.false_eq_true, if_false]
    exact ⟨pyUpper s, rfl⟩
  | true =>
    cases s with
    | nil => exact Bool.noConfusion h
    | cons a s' =>
      cases s' with
      | nil => exact Bool.noConfusion h
      | cons b t =>
        have hab : (a == 48 && b == 120) = true := h
        simp only [Bool.and_eq_true, beq_iff_eq] at hab
        obtain ⟨rfl, rfl⟩ := hab
        simp only [if_true]
        exact ⟨pyUpper t, rfl⟩

/-- C1 (code_bug evidence): the two normalisations in
`DeviceManager.get_device_by_address` disagree on the casing of the `x`
in the `0x` prefix — the query side always begins `0X` and the stored
side always begins `0x` — so the lookup returns `none` for every
registry and every queried address; in particular a device stored at
`0x05834FA4` is not found by querying that very string. -/
theorem C1_get_device_by_address_never_finds :
    (∀ (devices : List Device) (address : PyStr),
      get_device_by_address devices address = none) ∧
    get_device_by_address
      [{ name := "thermo", address := [48, 120, 48, 53, 56, 51, 52, 70, 65, 52],
         rorg := "A5", func := "02", type := "05" }]
      [48, 120, 48, 53, 56, 51, 52, 70, 65, 52] = none := by
  have huniv : ∀ (devices : List Device) (address : PyStr),
      get_device_by_address devices address = none := by
    intro devices address
    unfold get_device_by_address
    rw [List.find?_eq_none]
    intro d _
    simp only [Bool.not_eq_true, beq_eq_false_iff_ne]
    obtain ⟨t, ht⟩ := normalizeQuery_second address
    rw [normalizeStored_eq, ht]
    intro hcontra
    have : (120 : Nat) = 88 := by
      have := List.cons.inj hcontra
      exact (List.cons.inj this.2).1
    omega
  exact ⟨huniv, huniv _ _⟩

/-! ## C10 — short RADIO_ERP1 data blocks are ignored -/

/-- C10: every RADIO_ERP1 packet whose data block is shorter than 6
bytes is silently ignored by `_process_radio_telegram`: the gateway
state (ring buffer, unknown list, MQTT cache and file) is unchanged and
no event — teach-in callback, telegram callback, publish or file write —
is emitted. -/
theorem C10_short_data_ignored (now : String) (g : Gateway) (data optionalData : List Nat)
    (h : data.length < 6) :
    process_radio_telegram now g data optionalData = (g, []) := by
  unfold process_radio_telegram
  rw [if_pos h]

/-- Witness for C10 at a concrete 3-byte data block. -/
theorem C10_short_data_ignored_witness :
    ([0xA5, 0x00, 0x01] : List Nat).length < 6 ∧
    process_radio_telegram "2024-01-01T00:00:00"
      { mqttPrefix := "enocean", cacheStates := true, devices := [], profiles := [],
        mqtt := { connected := true, cache := [], file := none },
        tbuf := { maxSize := 200, buffer := [], unknown := [] },
        telegramCallbacks := 1, teachInCallbackSet := true }
      [0xA5, 0x00, 0x01] [] =
      ({ mqttPrefix := "enocean", cacheStates := true, devices := [], profiles := [],
         mqtt := { connected := true, cache := [], file := none },
         tbuf := { maxSize := 200, buffer := [], unknown := [] },
         telegramCallbacks := 1, teachInCallbackSet := true }, []) :=
  ⟨by decide, C10_short_data_ignored _ _ _ _ (by decide)⟩

/-! ## C5 — MQTT command handling (mqtt_handler.py, `_on_message`) -/

/-- C5 (code_bug evidence): `_on_message` parses the second-to-last
topic segment as the device name, but `_handle_command` is a stub that
only writes an info log — no run of the handler ever produces an
outbound telegram or an unknown-device warn, for any registry; a command
on `enocean/lamp/set` results in nothing but the log entry. -/
theorem C5_command_handler_is_stub :
    (∀ (patterns : List PyStr) (topic : PyStr) (payload : String),
      (on_message patterns topic payload).filter CmdEv.isGatewayCommandEffect = []) ∧
    on_message [] [101, 110, 111, 99, 101, 97, 110, 47, 108, 97, 109, 112, 47, 115, 101, 116]
        "on" = [.logCommand [108, 97, 109, 112] "on"] := by
  constructor
  · intro patterns topic payload
    rw [List.filter_eq_nil_iff]
    intro e he
    unfold on_message at he
    rw [List.mem_append] at he
    cases he with
    | inl h1 =>
      split at h1
      · split at h1
        · simp only [handle_command, List.mem_singleton] at h1
          subst h1
          simp [CmdEv.isGatewayCommandEffect]
        · exact absurd h1 (List.not_mem_nil e)
      · exact absurd h1 (List.not_mem_nil e)
    | inr h2 =>
      rw [List.mem_map] at h2
      obtain ⟨p, _, rfl⟩ := h2
      simp [CmdEv.isGatewayCommandEffect]
  · decide

/-! ## C6 — publish_state durability (mqtt_handler.py) -/

/-- C6: with state caching enabled, `publish_state` augments the state
with `_last_update`, replaces the in-memory snapshot, rewrites the cache
file, and only then issues the retained publish (which degrades to a
warn when the broker is unavailable); the file therefore holds the
augmented state under the device key regardless of the publish
outcome. -/
theorem C6_publish_state_durable (pfx now : String) (st : MqttState) (d : String)
    (s : Dict JVal) :
    (publish_state pfx true now st d s).1.file =
      some (publish_state pfx true now st d s).1.cache ∧
    ((publish_state pfx true now st d s).1.file.getD []).lookup d =
      some (dictSet s "_last_update" (.s now)) ∧
    (publish_state pfx true now st d s).2 =
      .saveFile (publish_state pfx true now st d s).1.cache ::
        (if st.connected then
          [.publish (pfx ++ "/" ++ d ++ "/state") (dictSet s "_last_update" (.s now)) true]
        else [.warnNotConnected]) := by
  refine ⟨rfl, ?_, rfl⟩
  exact lookup_dictSet_self st.cache d _

/-! ## C7 — startup state restore (mqtt_handler.py) -/

theorem flatten_map_singleton_comp {α β γ : Type} (l : List α) (g : α → β) (f : β → γ) :
    ((l.map g).map (fun x => [f x])).flatten = l.map (fun x => f (g x)) := by
  induction l with
  | nil => rfl
  | cons x xs ih => simp only [List.map_cons, List.flatten_cons, ih, List.cons_append,
      List.nil_append]

/-- C7: when the cache file exists and the broker is connected,
`load_persisted_states` republishes every stored entry retained on
`P/<name>/state` with `_restored: true` added, leaving every other key —
in particular `_last_update` — unchanged. -/
theorem C7_load_persisted_states_restores (pfx : String) (cache0 : Dict (Dict JVal))
    (stored : Dict (Dict JVal)) :
    (load_persisted_states pfx
        { connected := true, cache := cache0, file := some stored }).2 =
      stored.map (fun p => .publish (pfx ++ "/" ++ p.1 ++ "/state")
        (dictSet p.2 "_restored" (.b true)) true) ∧
    ∀ p ∈ stored,
      (dictSet p.2 "_restored" (.b true)).lookup "_restored" = some (.b true) ∧
      (dictSet p.2 "_restored" (.b true)).lookup "_last_update" =
        p.2.lookup "_last_update" := by
  constructor
  · show ((stored.map (fun p => (p.1, dictSet p.2 "_restored" (JVal.b true)))).map
        (fun p => [Ev.publish (pfx ++ "/" ++ p.1 ++ "/state") p.2 true])).flatten = _
    exact flatten_map_singleton_comp stored _ _
  · intro p _
    exact ⟨lookup_dictSet_self p.2 "_restored" _,
      lookup_dictSet_ne p.2 "_restored" "_last_update" _ (by decide)⟩

/-- Witness for C7 on the liquid-level example of §8.4 of the spec. -/
theorem C7_load_persisted_states_restores_witness :
    (load_persisted_states "enocean"
        { connected := true, cache := [],
          file := some [("tank", [("LEVEL", JVal.i 37),
                                  ("_last_update", JVal.s "2024-01-01T00:00:00")])] }).2 =
      [Ev.publish "enocean/tank/state"
        [("LEVEL", JVal.i 37), ("_last_update", JVal.s "2024-01-01T00:00:00"),
         ("_restored", JVal.b true)] true] ∧
    (dictSet [("LEVEL", JVal.i 37), ("_last_update", JVal.s "2024-01-01T00:00:00")]
        "_restored" (JVal.b true)).lookup "_last_update" =
      some (JVal.s "2024-01-01T00:00:00") := by
  have h := C7_load_persisted_states_restores "enocean" []
    [("tank", [("LEVEL", JVal.i 37), ("_last_update", JVal.s "2024-01-01T00:00:00")])]
  constructor
  · rw [h.1]
    decide
  · have h2 := (h.2 ("tank", [("LEVEL", JVal.i 37),
      ("_last_update", JVal.s "2024-01-01T00:00:00")]) (by decide)).2
    rw [h2]
    decide

/-! ## C9 — mapping resolution (mapping_manager.py) -/

/-- C9 (amended): `get_mapping` resolves the uppercased EEP id with
whole-entry precedence — the custom entry when present (with no merge of
default shortcuts), else the default entry, else the empty mapping. -/
theorem C9_get_mapping_entry_level (customMappings : Dict Mapping) (eepId : String) :
    (∀ m, customMappings.lookup (pyUpperS eepId) = some m →
      get_mapping customMappings eepId = m) ∧
    (customMappings.lookup (pyUpperS eepId) = none →
      ∀ m, DEFAULT_MAPPINGS.lookup (pyUpperS eepId) = some m →
        get_mapping customMappings eepId = m) ∧
    (customMappings.lookup (pyUpperS eepId) = none →
      DEFAULT_MAPPINGS.lookup (pyUpperS eepId) = none →
      get_mapping customMappings eepId = []) := by
  simp only [get_mapping]
  refine ⟨?_, ?_, ?_⟩
  · intro m hm
    rw [hm]
  · intro hn m hm
    rw [hn, hm]
  · intro hn hd
    rw [hn, hd]

/-- C9 counterexample: with a custom entry for `A5-02-05` that defines
only `FOO`, the default-mapped shortcut `TMP` is *absent* from the
effective mapping — `get_mapping` is not a shortcut-level union — even
though the default mapping for the same id does carry `TMP`. -/
theorem C9_get_mapping_not_shortcut_union :
    (get_mapping [("A5-02-05", [("FOO", { component := "sensor", name := "Foo" })])]
      "A5-02-05").lookup "TMP" = none ∧
    ((get_mapping [] "A5-02-05").lookup "TMP").isSome = true := by
  decide

/-- Witness for C9 (amended), exercising the uppercase path and the
default fallback. -/
theorem C9_get_mapping_entry_level_witness :
    get_mapping [] "a5-02-05" =
      [("TMP", { component := "sensor", name := "Temperature",
                 device_class := some "temperature", unit_of_measurement := some "°C",
                 value_template := some "\x7b\x7b value_json.TMP \x7d\x7d" })] := by
  exact (C9_get_mapping_entry_level [] "a5-02-05").2.1 rfl _ (by decide)

/-! ## C4 — generic EEP bit-field decoder (serial_handler.py) -/

theorem decodeField_lookup_skip (dI dB : Nat) (dec : Dict JVal) (g : EEPField) (x : String)
    (h : dB < g.offset + g.size ∨ (g.shortcut ≠ x ∧ g.shortcut ++ "_text" ≠ x)) :
    (decodeField dI dB dec g).lookup x = dec.lookup x := by
  unfold decodeField
  by_cases hfit : dB < g.offset + g.size
  · rw [if_pos hfit]
  · obtain ⟨h1, h2⟩ := h.resolve_left hfit
    rw [if_neg hfit]
    by_cases he : g.ftype = "enum"
    · rw [if_pos he]
      cases hf : g.values.find? (fun v => v.1 == toString (rawOf dI dB g)) with
      | some v =>
        rw [lookup_dictSet_ne _ _ _ _ (Ne.symm h2), lookup_dictSet_ne _ _ _ _ (Ne.symm h1)]
      | none => rw [lookup_dictSet_ne _ _ _ _ (Ne.symm h1)]
    · rw [if_neg he]
      by_cases hv : g.ftype = "value"
      · rw [if_pos hv]
        by_cases hr : g.range_max ≠ g.range_min
        · rw [if_pos hr, lookup_dictSet_ne _ _ _ _ (Ne.symm h1)]
        · rw [if_neg hr, lookup_dictSet_ne _ _ _ _ (Ne.symm h1)]
      · rw [if_neg hv, lookup_dictSet_ne _ _ _ _ (Ne.symm h1)]

theorem foldl_decodeField_lookup_skip (dI dB : Nat) (fs : List EEPField) (dec : Dict JVal)
    (x : String)
    (h : ∀ g ∈ fs, dB < g.offset + g.size ∨ (g.shortcut ≠ x ∧ g.shortcut ++ "_text" ≠ x)) :
    (fs.foldl (decodeField dI dB) dec).lookup x = dec.lookup x := by
  induction fs generalizing dec with
  | nil => rfl
  | cons g fs' ih =>
    rw [List.foldl_cons]
    rw [ih _ (fun g' hg' => h g' (List.mem_cons_of_mem _ hg'))]
    exact decodeField_lookup_skip dI dB dec g x (h g (List.mem_cons_self _ _))

theorem decodeField_lookup_self (dI dB : Nat) (dec : Dict JVal) (g : EEPField)
    (hfit : g.offset + g.size ≤ dB) (hst : g.shortcut ≠ g.shortcut ++ "_text") :
    (decodeField dI dB dec g).lookup g.shortcut =
      some (if g.ftype = "value" ∧ g.range_max ≠ g.range_min
        then .q (round2 (scaledOf (rawOf dI dB g) g))
        else .i (rawOf dI dB g)) := by
  unfold decodeField
  rw [if_neg (by omega : ¬dB < g.offset + g.size)]
  by_cases he : g.ftype = "enum"
  · rw [if_pos he]
    have hcond : ¬(g.ftype = "value" ∧ g.range_max ≠ g.range_min) := by
      rw [he]
      rintro ⟨hv, -⟩
      exact absurd hv (by decide)
    rw [if_neg hcond]
    cases hf : g.values.find? (fun v => v.1 == toString (rawOf dI dB g)) with
    | some v => rw [lookup_dictSet_ne _ _ _ _ hst, lookup_dictSet_self]
    | none => rw [lookup_dictSet_self]
  · rw [if_neg he]
    by_cases hv : g.ftype = "value"
    · rw [if_pos hv]
      by_cases hr : g.range_max ≠ g.range_min
      · rw [if_pos hr, if_pos ⟨hv, hr⟩, lookup_dictSet_self]
      · rw [if_neg hr, if_neg (fun hc => hr hc.2), lookup_dictSet_self]
    · rw [if_neg hv, if_neg (fun hc => hv hc.1), lookup_dictSet_self]

theorem foldl_decodeField_lookup_mem (dI dB : Nat) (fs : List EEPField) :
    ∀ (dec : Dict JVal) (f : EEPField), f ∈ fs → (fs.map EEPField.shortcut).Nodup →
    (∀ g ∈ fs, ∀ g' ∈ fs, g.shortcut ≠ g'.shortcut ++ "_text") →
    f.offset + f.size ≤ dB →
    (fs.foldl (decodeField dI dB) dec).lookup f.shortcut =
      some (if f.ftype = "value" ∧ f.range_max ≠ f.range_min
        then .q (round2 (scaledOf (rawOf dI dB f) f))
        else .i (rawOf dI dB f)) := by
  induction fs with
  | nil => exact fun dec f hmem _ _ _ => absurd hmem (List.not_mem_nil f)
  | cons g fs' ih =>
    intro dec f hmem hnodup htext hfit
    rw [List.map_cons] at hnodup
    obtain ⟨hnotin, hnd'⟩ := List.nodup_cons.mp hnodup
    rw [List.foldl_cons]
    rcases List.mem_cons.mp hmem with heq | hmem'
    · subst heq
      have hskip : ∀ g' ∈ fs', dB < g'.offset + g'.size ∨
          (g'.shortcut ≠ f.shortcut ∧ g'.shortcut ++ "_text" ≠ f.shortcut) := by
        intro g' hg'
        right
        exact ⟨fun e => hnotin (e ▸ List.mem_map_of_mem EEPField.shortcut hg'),
          Ne.symm (htext f (List.mem_cons_self _ _) g' (List.mem_cons_of_mem _ hg'))⟩
      rw [foldl_decodeField_lookup_skip dI dB fs' _ f.shortcut hskip]
      exact decodeField_lookup_self dI dB dec f hfit
        (htext f (List.mem_cons_self _ _) f (List.mem_cons_self _ _))
    · exact ih (decodeField dI dB dec g) f hmem' hnd'
        (fun a ha b hb =>
          htext a (List.mem_cons_of_mem _ ha) b (List.mem_cons_of_mem _ hb)) hfit

/-- C4: `_decode_telegram` always emits `sender_id` and `rssi`; with an
empty field list it emits exactly those plus the upper-case hex `raw`
payload; otherwise it emits exactly the fields that fit the payload
(`offset + size ≤ payload_bits`), each with
`raw = (payload_int >> (payload_bits - offset - size)) & ((1 << size) - 1)`,
where a `value`-kind field with `raw_max ≠ raw_min` carries the scaled
result rounded to two decimals and every other case carries the raw
integer.  The shortcut-uniqueness hypotheses mirror the dict-key model. -/
theorem C4_decode_telegram_boundaries (payload : List Nat) (senderHex : String) (dbm : Int)
    (fields : List EEPField)
    (hnodup : (fields.map EEPField.shortcut).Nodup)
    (hres : ∀ f ∈ fields, f.shortcut ≠ "sender_id" ∧ f.shortcut ≠ "rssi")
    (htext : ∀ f ∈ fields, ∀ g ∈ fields, f.shortcut ≠ g.shortcut ++ "_text")
    (htextres : ∀ f ∈ fields,
      f.shortcut ++ "_text" ≠ "sender_id" ∧ f.shortcut ++ "_text" ≠ "rssi") :
    (decode_telegram payload senderHex dbm fields).lookup "sender_id" =
      some (.s senderHex) ∧
    (decode_telegram payload senderHex dbm fields).lookup "rssi" = some (.i dbm) ∧
    (fields = [] → decode_telegram payload senderHex dbm fields =
      [("sender_id", .s senderHex), ("rssi", .i dbm), ("raw", .s (hexUpper payload))]) ∧
    (∀ f ∈ fields, f.offset + f.size ≤ payload.length * 8 →
      (decode_telegram payload senderHex dbm fields).lookup f.shortcut =
        some (if f.ftype = "value" ∧ f.range_max ≠ f.range_min
          then .q (round2 (f.scale_min +
            (((intFromBytes payload >>> (payload.length * 8 - f.offset - f.size)) &&&
                ((1 <<< f.size) - 1) : Nat) - f.range_min) *
              (f.scale_max - f.scale_min) / (f.range_max - f.range_min)))
          else .i ((intFromBytes payload >>> (payload.length * 8 - f.offset - f.size)) &&&
            ((1 <<< f.size) - 1)))) ∧
    (∀ f ∈ fields, payload.length * 8 < f.offset + f.size →
      (decode_telegram payload senderHex dbm fields).lookup f.shortcut = none) := by
  unfold decode_telegram
  cases fields with
  | nil =>
    refine ⟨rfl, rfl, fun _ => rfl, ?_, ?_⟩ <;>
      exact fun f hf => absurd hf (List.not_mem_nil f)
  | cons g fs =>
    rw [show ((g :: fs).isEmpty) = false from rfl]
    simp only [Bool.false_eq_true, if_false]
    refine ⟨?_, ?_, ?_, ?_, ?_⟩
    · rw [foldl_decodeField_lookup_skip _ _ _ _ _
        (fun g' hg' => Or.inr ⟨(hres g' hg').1, (htextres g' hg').1⟩)]
      rw [List.lookup_cons, show (("sender_id" : String) == "sender_id") = true from by decide]
    · rw [foldl_decodeField_lookup_skip _ _ _ _ _
        (fun g' hg' => Or.inr ⟨(hres g' hg').2, (htextres g' hg').2⟩)]
      rw [List.lookup_cons, show (("rssi" : String) == "sender_id") = false from by decide]
      show List.lookup "rssi" [("rssi", JVal.i dbm)] = some (JVal.i dbm)
      rw [List.lookup_cons, show (("rssi" : String) == "rssi") = true from by decide]
    · intro h
      exact absurd h (List.cons_ne_nil g fs)
    · intro f hf hfit
      exact foldl_decodeField_lookup_mem _ _ _ _ f hf hnodup htext hfit
    · intro f hf hlt
      rw [foldl_decodeField_lookup_skip _ _ _ _ _ ?_]
      · rw [List.lookup_cons, beq_eq_false_iff_ne.mpr (hres f hf).1,
          List.lookup_cons, beq_eq_false_iff_ne.mpr (hres f hf).2]
        rfl
      · intro g' hg'
        by_cases hsc : g'.shortcut = f.shortcut
        · have : g' = f := List.inj_on_of_nodup_map hnodup hg' hf hsc
          subst this
          exact Or.inl hlt
        · exact Or.inr ⟨hsc, Ne.symm (htext f hf g' hg')⟩

/-- Witness for C4 on the spec's §8.1 temperature example:
`A5-02-05` `TMP{offset 16, size 8, raw 0..255, scale 40..0}` decoding
payload `00 00 55 08` to `TMP = 26.67`. -/
theorem C4_decode_telegram_boundaries_witness :
    (decode_telegram [0x00, 0x00, 0x55, 0x08] "0x05834FA4" (-64)
        [⟨"TMP", 16, 8, "value", [], 40, 0, 0, 255⟩]).lookup "TMP" =
      some (.q (2667 / 100)) ∧
    (decode_telegram [0x00, 0x00, 0x55, 0x08] "0x05834FA4" (-64)
        [⟨"TMP", 16, 8, "value", [], 40, 0, 0, 255⟩]).lookup "sender_id" =
      some (.s "0x05834FA4") := by
  have h := C4_decode_telegram_boundaries [0x00, 0x00, 0x55, 0x08] "0x05834FA4" (-64)
    [⟨"TMP", 16, 8, "value", [], 40, 0, 0, 255⟩]
    (by decide) (by decide) (by decide) (by decide)
  constructor
  · have h4 := h.2.2.2.1 ⟨"TMP", 16, 8, "value", [], 40, 0, 0, 255⟩
      (List.mem_singleton.mpr rfl) (by decide)
    rw [h4]
    rw [if_pos ⟨rfl, by norm_num⟩]
    rw [show (intFromBytes [0x00, 0x00, 0x55, 0x08] >>>
        ([0x00, 0x00, 0x55, 0x08].length * 8 -
          (⟨"TMP", 16, 8, "value", [], 40, 0, 0, 255⟩ : EEPField).offset -
          (⟨"TMP", 16, 8, "value", [], 40, 0, 0, 255⟩ : EEPField).size)) &&&
        ((1 <<< (⟨"TMP", 16, 8, "value", [], 40, 0, 0, 255⟩ : EEPField).size) - 1) = 85
      from by decide]
    have harg : ((⟨"TMP", 16, 8, "value", [], 40, 0, 0, 255⟩ : EEPField).scale_min +
        (((85 : ℕ) : ℚ) - (⟨"TMP", 16, 8, "value", [], 40, 0, 0, 255⟩ : EEPField).range_min) *
          ((⟨"TMP", 16, 8, "value", [], 40, 0, 0, 255⟩ : EEPField).scale_max -
            (⟨"TMP", 16, 8, "value", [], 40, 0, 0, 255⟩ : EEPField).scale_min) /
          ((⟨"TMP", 16, 8, "value", [], 40, 0, 0, 255⟩ : EEPField).range_max -
            (⟨"TMP", 16, 8, "value", [], 40, 0, 0, 255⟩ : EEPField).range_min)) =
        (1360 : ℚ) / 51 := by
      show (40 : ℚ) + (((85 : ℕ) : ℚ) - 0) * ((0 : ℚ) - 40) / ((255 : ℚ) - 0) = 1360 / 51
      push_cast
      norm_num
    rw [harg]
    have hround : round2 ((1360 : ℚ) / 51) = 2667 / 100 := by
      unfold round2
      rw [show (1360 : ℚ) / 51 * 100 = 136000 / 51 from by norm_num]
      rw [round_eq]
      rw [show (136000 : ℚ) / 51 + 1 / 2 = 272051 / 102 from by norm_num]
      rw [show ⌊(272051 : ℚ) / 102⌋ = 2667 from by
        rw [Int.floor_eq_iff]
        constructor <;> norm_num]
      norm_num
    rw [hround]
  · exact h.1

/-! ## C8 — unknown-sender tracking (telegram_buffer.py) -/

theorem filter_eq_find_toList (s : String) (U : List URec)
    (hnodup : (U.map URec.sender_id).Nodup) :
    U.filter (fun r => r.sender_id == s) = (U.find? (fun r => r.sender_id == s)).toList := by
  induction U with
  | nil => rfl
  | cons r U' ih =>
    rw [List.map_cons] at hnodup
    obtain ⟨hnotin, hnd'⟩ := List.nodup_cons.mp hnodup
    rw [List.filter_cons, List.find?_cons]
    cases hr : (r.sender_id == s) with
    | true =>
      rw [if_pos rfl]
      have hs := beq_iff_eq.mp hr
      have : U'.filter (fun r => r.sender_id == s) = [] := by
        rw [List.filter_eq_nil_iff]
        intro a ha hc
        exact hnotin (by
          rw [hs, ← beq_iff_eq.mp hc]
          exact List.mem_map_of_mem URec.sender_id ha)
      rw [this]
      rfl
    | false =>
      rw [if_neg (by simp)]
      exact ih hnd'

theorem updateFirst_map {α β : Type} (p : α → Bool) (f : α → α) (g : α → β)
    (hpres : ∀ a, g (f a) = g a) : ∀ l : List α, (updateFirst p f l).map g = l.map g := by
  intro l
  induction l with
  | nil => rfl
  | cons x xs ih =>
    unfold updateFirst
    cases hp : p x with
    | true => rw [if_pos rfl, List.map_cons, List.map_cons, hpres]
    | false =>
      rw [if_neg (by simp), List.map_cons, List.map_cons, ih]

theorem find?_updateFirst_hit {α : Type} (p : α → Bool) (f : α → α) :
    ∀ (l : List α) (r : α), l.find? p = some r → p (f r) = true →
      (updateFirst p f l).find? p = some (f r) := by
  intro l
  induction l with
  | nil => intro r hr; exact absurd hr (by simp)
  | cons x xs ih =>
    intro r hr hfr
    unfold updateFirst
    rw [List.find?_cons] at hr
    cases hp : p x with
    | true =>
      rw [hp] at hr
      injection hr with hr
      subst hr
      rw [if_pos rfl, List.find?_cons, hfr]
    | false =>
      rw [hp] at hr
      rw [if_neg (by simp), List.find?_cons, hp]
      exact ih r hr hfr

theorem find?_updateFirst_miss {α : Type} (p p' : α → Bool) (f : α → α)
    (hdisj : ∀ a, p a = true → p' a = false ∧ p' (f a) = false) :
    ∀ l : List α, (updateFirst p f l).find? p' = l.find? p' := by
  intro l
  induction l with
  | nil => rfl
  | cons x xs ih =>
    unfold updateFirst
    cases hp : p x with
    | true =>
      obtain ⟨h1, h2⟩ := hdisj x hp
      rw [if_pos rfl, List.find?_cons, List.find?_cons, h1, h2]
    | false =>
      rw [if_neg (by simp), List.find?_cons, List.find?_cons]
      cases p' x with
      | true => rfl
      | false => exact ih

theorem foldl_touchURec_fields (l : List AddCall) :
    ∀ r : URec,
      (l.foldl (fun r c => touchURec c.now c.dbm r) r).sender_id = r.sender_id ∧
      (l.foldl (fun r c => touchURec c.now c.dbm r) r).rorg = r.rorg ∧
      (l.foldl (fun r c => touchURec c.now c.dbm r) r).first_seen = r.first_seen ∧
      (l.foldl (fun r c => touchURec c.now c.dbm r) r).count = r.count + l.length ∧
      ((l.foldl (fun r c => touchURec c.now c.dbm r) r).last_seen =
        (l.getLast?.map AddCall.now).getD r.last_seen) ∧
      ((l.foldl (fun r c => touchURec c.now c.dbm r) r).dbm =
        (l.getLast?.map AddCall.dbm).getD r.dbm) := by
  induction l with
  | nil => exact fun r => ⟨rfl, rfl, rfl, rfl, rfl, rfl⟩
  | cons c l' ih =>
    intro r
    rw [List.foldl_cons]
    obtain ⟨h1, h2, h3, h4, h5, h6⟩ := ih (touchURec c.now c.dbm r)
    refine ⟨h1, h2, h3, ?_, ?_, ?_⟩
    · rw [h4]
      show r.count + 1 + l'.length = r.count + (c :: l').length
      rw [List.length_cons]
      omega
    · rw [h5]
      cases hl : l' with
      | nil => rfl
      | cons d l'' =>
        rw [List.getLast?_cons_cons]
        rfl
    · rw [h6]
      cases hl : l' with
      | nil => rfl
      | cons d l'' =>
        rw [List.getLast?_cons_cons]
        rfl

/-- Characterisation of iterated `_add_unknown_device` calls: as long as
fewer than 51 distinct senders are tracked (so the capacity-50 deque
never evicts), the records for a given sender `s` in the final list are
exactly one record evolved by `touchURec` from either the pre-existing
record or a fresh record created at the first `s`-call. -/
theorem unknown_fold_char (s : String) :
    ∀ (us : List AddCall) (U : List URec),
    (U.map URec.sender_id).Nodup →
    ((U.map URec.sender_id) ++ us.map AddCall.sender).toFinset.card ≤ 50 →
    (us.foldl (fun u c => add_unknown_device c.now u c.sender c.rorg c.dbm) U).filter
        (fun r => r.sender_id == s) =
      (match U.find? (fun r => r.sender_id == s), us.filter (fun c => c.sender == s) with
       | some r0, sc => [sc.foldl (fun r c => touchURec c.now c.dbm r) r0]
       | none, [] => []
       | none, d :: sc => [sc.foldl (fun r c => touchURec c.now c.dbm r)
           (freshURec d.now d.sender d.rorg d.dbm)]) := by
  intro us
  induction us with
  | nil =>
    intro U hnodup _
    rw [List.foldl_nil]
    rw [filter_eq_find_toList s U hnodup]
    cases hf : U.find? (fun r => r.sender_id == s) with
    | some r0 => rfl
    | none => rfl
  | cons c us' ih =>
    intro U hnodup hcap
    rw [List.foldl_cons, List.filter_cons]
    by_cases hcs : c.sender = s
    · rw [hcs]
      rw [if_pos (beq_self_eq_true s)]
      by_cases hany : U.any (fun r => r.sender_id == s) = true
      · obtain ⟨r0, hr0⟩ : ∃ r0, U.find? (fun r => r.sender_id == s) = some r0 := by
          rw [← Option.isSome_iff_exists, List.find?_isSome]
          obtain ⟨x, hx, px⟩ := List.any_eq_true.mp hany
          exact ⟨x, hx, px⟩
        have hU' : add_unknown_device c.now U s c.rorg c.dbm =
            updateFirst (fun r => r.sender_id == s) (touchURec c.now c.dbm) U := by
          unfold add_unknown_device
          rw [if_pos hany]
        rw [hU']
        have hmap' := updateFirst_map (fun r => r.sender_id == s)
          (touchURec c.now c.dbm) URec.sender_id (fun a => rfl) U
        have hnodup' : ((updateFirst (fun r => r.sender_id == s) (touchURec c.now c.dbm)
            U).map URec.sender_id).Nodup := by
          rw [hmap']
          exact hnodup
        have hcap' : (((updateFirst (fun r => r.sender_id == s) (touchURec c.now c.dbm)
              U).map URec.sender_id) ++ us'.map AddCall.sender).toFinset.card ≤ 50 := by
          rw [hmap']
          refine le_trans (Finset.card_le_card ?_) hcap
          intro x hx
          simp only [List.toFinset_append, Finset.mem_union, List.mem_toFinset,
            List.map_cons, List.toFinset_cons, Finset.mem_insert] at hx ⊢
          tauto
        rw [ih _ hnodup' hcap']
        have hfind' : (updateFirst (fun r => r.sender_id == s) (touchURec c.now c.dbm)
            U).find? (fun r => r.sender_id == s) = some (touchURec c.now c.dbm r0) :=
          find?_updateFirst_hit (fun r => r.sender_id == s) (touchURec c.now c.dbm)
            U r0 hr0 (by
              have hp := List.find?_some hr0
              exact hp)
        rw [hfind', hr0]
        show [(List.filter (fun c => c.sender == s) us').foldl
            (fun r c => touchURec c.now c.dbm r) (touchURec c.now c.dbm r0)] =
          [(c :: List.filter (fun c => c.sender == s) us').foldl
            (fun r c => touchURec c.now c.dbm r) r0]
        rw [List.foldl_cons]
      · have hnone : U.find? (fun r => r.sender_id == s) = none := by
          rw [List.find?_eq_none]
          intro x hx
          exact fun px => hany (List.any_eq_true.mpr ⟨x, hx, px⟩)
        have hnotin : s ∉ U.map URec.sender_id := by
          intro hmem
          obtain ⟨r, hr, he⟩ := List.mem_map.mp hmem
          exact hany (List.any_eq_true.mpr ⟨r, hr, beq_iff_eq.mpr he⟩)
        have hlen : U.length + 1 ≤ 50 := by
          have h1 : (insert s (U.map URec.sender_id).toFinset).card = U.length + 1 := by
            rw [Finset.card_insert_of_not_mem (by simpa using hnotin)]
            rw [List.toFinset_card_of_nodup hnodup, List.length_map]
          have h2 : insert s (U.map URec.sender_id).toFinset ⊆
              ((U.map URec.sender_id) ++ (c :: us').map AddCall.sender).toFinset := by
            intro x hx
            simp only [Finset.mem_insert, List.mem_toFinset] at hx
            simp only [List.toFinset_append, Finset.mem_union, List.mem_toFinset,
              List.map_cons, List.toFinset_cons, Finset.mem_insert, hcs]
            tauto
          calc U.length + 1 = _ := h1.symm
            _ ≤ _ := Finset.card_le_card h2
            _ ≤ 50 := hcap
        have hU' : add_unknown_device c.now U s c.rorg c.dbm =
            U ++ [freshURec c.now s c.rorg c.dbm] := by
          unfold add_unknown_device
          rw [if_neg (by simp [hany])]
          unfold dequeAppend
          rw [if_neg (by
            rw [List.length_append, List.length_cons, List.length_nil]
            omega)]
        rw [hU']
        have hnodup' : ((U ++ [freshURec c.now s c.rorg c.dbm]).map URec.sender_id).Nodup := by
          rw [List.map_append]
          exact List.Nodup.append hnodup (List.nodup_singleton _)
            (fun a ha hb => hnotin (by
              have : a = s := by simpa using hb
              rwa [this] at ha))
        have hcap' : (((U ++ [freshURec c.now s c.rorg c.dbm]).map URec.sender_id) ++
            us'.map AddCall.sender).toFinset.card ≤ 50 := by
          refine le_trans (Finset.card_le_card ?_) hcap
          intro x hx
          simp only [List.map_append, List.toFinset_append, Finset.mem_union,
            List.mem_toFinset, List.map_cons, List.toFinset_cons, Finset.mem_insert,
            List.mem_singleton, List.map_nil, List.toFinset_nil, Finset.not_mem_empty,
            or_false, hcs] at hx ⊢
          tauto
        rw [ih _ hnodup' hcap']
        have hfind' : (U ++ [freshURec c.now s c.rorg c.dbm]).find?
            (fun r => r.sender_id == s) = some (freshURec c.now s c.rorg c.dbm) := by
          rw [List.find?_append, hnone]
          simp [List.find?_cons, freshURec]
        rw [hfind', hnone]
        show [(List.filter (fun c => c.sender == s) us').foldl
            (fun r c => touchURec c.now c.dbm r) (freshURec c.now s c.rorg c.dbm)] =
          [(List.filter (fun c => c.sender == s) us').foldl
            (fun r c => touchURec c.now c.dbm r) (freshURec c.now c.sender c.rorg c.dbm)]
        rw [hcs]
    · have hcs' : (c.sender == s) = false := beq_eq_false_iff_ne.mpr hcs
      rw [if_neg (by simp [hcs'])]
      by_cases hany : U.any (fun r => r.sender_id == c.sender) = true
      · have hU' : add_unknown_device c.now U c.sender c.rorg c.dbm =
            updateFirst (fun r => r.sender_id == c.sender) (touchURec c.now c.dbm) U := by
          unfold add_unknown_device
          rw [if_pos hany]
        rw [hU']
        have hmap' := updateFirst_map (fun r => r.sender_id == c.sender)
          (touchURec c.now c.dbm) URec.sender_id (fun a => rfl) U
        have hnodup' : ((updateFirst (fun r => r.sender_id == c.sender)
            (touchURec c.now c.dbm) U).map URec.sender_id).Nodup := by
          rw [hmap']
          exact hnodup
        have hcap' : (((updateFirst (fun r => r.sender_id == c.sender)
              (touchURec c.now c.dbm) U).map URec.sender_id) ++
            us'.map AddCall.sender).toFinset.card ≤ 50 := by
          rw [hmap']
          refine le_trans (Finset.card_le_card ?_) hcap
          intro x hx
          simp only [List.toFinset_append, Finset.mem_union, List.mem_toFinset,
            List.map_cons, List.toFinset_cons, Finset.mem_insert] at hx ⊢
          tauto
        rw [ih _ hnodup' hcap']
        have hfind' : (updateFirst (fun r => r.sender_id == c.sender)
            (touchURec c.now c.dbm) U).find? (fun r => r.sender_id == s) =
            U.find? (fun r => r.sender_id == s) := by
          refine find?_updateFirst_miss _ _ _ ?_ U
          intro a ha
          have : a.sender_id = c.sender := beq_iff_eq.mp ha
          constructor
          · rw [beq_eq_false_iff_ne]
            rw [this]
            exact hcs
          · show ((touchURec c.now c.dbm a).sender_id == s) = false
            rw [show (touchURec c.now c.dbm a).sender_id = a.sender_id from rfl]
            rw [beq_eq_false_iff_ne, this]
            exact hcs
        rw [hfind']
      · have hnotin : c.sender ∉ U.map URec.sender_id := by
          intro hmem
          obtain ⟨r, hr, he⟩ := List.mem_map.mp hmem
          exact hany (List.any_eq_true.mpr ⟨r, hr, beq_iff_eq.mpr he⟩)
        have hlen : U.length + 1 ≤ 50 := by
          have h1 : (insert c.sender (U.map URec.sender_id).toFinset).card =
              U.length + 1 := by
            rw [Finset.card_insert_of_not_mem (by simpa using hnotin)]
            rw [List.toFinset_card_of_nodup hnodup, List.length_map]
          have h2 : insert c.sender (U.map URec.sender_id).toFinset ⊆
              ((U.map URec.sender_id) ++ (c :: us').map AddCall.sender).toFinset := by
            intro x hx
            simp only [Finset.mem_insert, List.mem_toFinset] at hx
            simp only [List.toFinset_append, Finset.mem_union, List.mem_toFinset,
              List.map_cons, List.toFinset_cons, Finset.mem_insert]
            tauto
          calc U.length + 1 = _ := h1.symm
            _ ≤ _ := Finset.card_le_card h2
            _ ≤ 50 := hcap
        have hU' : add_unknown_device c.now U c.sender c.rorg c.dbm =
            U ++ [freshURec c.now c.sender c.rorg c.dbm] := by
          unfold add_unknown_device
          rw [if_neg (by simp [hany])]
          unfold dequeAppend
          rw [if_neg (by
            rw [List.length_append, List.length_cons, List.length_nil]
            omega)]
        rw [hU']
        have hnodup' : ((U ++ [freshURec c.now c.sender c.rorg c.dbm]).map
            URec.sender_id).Nodup := by
          rw [List.map_append]
          exact List.Nodup.append hnodup (List.nodup_singleton _)
            (fun a ha hb => hnotin (by
              have : a = c.sender := by simpa using hb
              rwa [this] at ha))
        have hcap' : (((U ++ [freshURec c.now c.sender c.rorg c.dbm]).map URec.sender_id) ++
            us'.map AddCall.sender).toFinset.card ≤ 50 := by
          refine le_trans (Finset.card_le_card ?_) hcap
          intro x hx
          simp only [List.map_append, List.toFinset_append, Finset.mem_union,
            List.mem_toFinset, List.map_cons, List.toFinset_cons, Finset.mem_insert,
            List.mem_singleton, List.map_nil, List.toFinset_nil, Finset.not_mem_empty,
            or_false] at hx ⊢
          tauto
        rw [ih _ hnodup' hcap']
        have hfind' : (U ++ [freshURec c.now c.sender c.rorg c.dbm]).find?
            (fun r => r.sender_id == s) = U.find? (fun r => r.sender_id == s) := by
          rw [List.find?_append]
          have : ([freshURec c.now c.sender c.rorg c.dbm].find?
              (fun r => r.sender_id == s)) = none := by
            simp [List.find?_cons, freshURec, hcs']
          rw [this]
          cases U.find? (fun r => r.sender_id == s) <;> rfl
        rw [hfind']

/-- Only `add` calls with no resolved device touch the unknown list. -/
theorem runAdds_unknown (calls : List AddCall) : ∀ b : TBuf,
    (runAdds b calls).unknown =
      (calls.filter (fun c => c.device_name.isNone)).foldl
        (fun u c => add_unknown_device c.now u c.sender c.rorg c.dbm) b.unknown := by
  induction calls with
  | nil => exact fun b => rfl
  | cons c calls' ih =>
    intro b
    show (runAdds (b.add c) calls').unknown = _
    rw [ih (b.add c), List.filter_cons]
    cases hd : c.device_name with
    | none =>
      have h1 : (b.add c).unknown =
          add_unknown_device c.now b.unknown c.sender c.rorg c.dbm := by
        simp [TBuf.add, hd]
      simp only [hd, Option.isNone_none, if_pos, List.foldl_cons, h1]
    | some dn =>
      have h1 : (b.add c).unknown = b.unknown := by
        simp [TBuf.add, hd]
      simp only [hd, Option.isNone_some, Bool.false_eq_true, if_false, h1]

/-- C8: for a sender `s` never present in the registry (every telegram
from it reaches the buffer with `device_name = None`), as long as at
most 50 distinct unknown senders appear, after the calls are applied the
unknown-device list holds exactly one record for `s`, whose `count` is
the number of telegrams from `s`, whose `first_seen` and `rorg` come
from the first such telegram, and whose `last_seen` and signal strength
come from the latest one. -/
theorem C8_unknown_sender_tracking (s : String) (m : Nat) (calls : List AddCall)
    (hunk : ∀ c ∈ calls, c.sender = s → c.device_name = none)
    (hcap : ((calls.filter (fun c => c.device_name.isNone)).map
      AddCall.sender).toFinset.card ≤ 50)
    (c0 cLast : AddCall)
    (hhead : (calls.filter (fun c => c.sender == s)).head? = some c0)
    (hlast : (calls.filter (fun c => c.sender == s)).getLast? = some cLast) :
    (runAdds ⟨m, [], []⟩ calls).unknown.filter (fun r => r.sender_id == s) =
      [{ sender_id := s, rorg := c0.rorg, first_seen := c0.now,
         last_seen := cLast.now,
         count := (calls.filter (fun c => c.sender == s)).length,
         dbm := cLast.dbm }] := by
  rw [runAdds_unknown]
  have hchar := unknown_fold_char s (calls.filter (fun c => c.device_name.isNone)) []
    (by simp) (by simpa using hcap)
  rw [show (([] : List URec).find? (fun r => r.sender_id == s)) = none from rfl] at hchar
  have hsc : (calls.filter (fun c => c.device_name.isNone)).filter
      (fun c => c.sender == s) = calls.filter (fun c => c.sender == s) := by
    rw [List.filter_filter]
    apply List.filter_congr
    intro a ha
    cases hsa : (a.sender == s) with
    | true =>
      rw [hunk a ha (beq_iff_eq.mp hsa)]
      rfl
    | false => rfl
  rw [hsc] at hchar
  obtain ⟨t, ht⟩ : ∃ t, calls.filter (fun c => c.sender == s) = c0 :: t := by
    cases h : calls.filter (fun c => c.sender == s) with
    | nil =>
      rw [h] at hhead
      exact absurd hhead (by simp)
    | cons x t =>
      rw [h] at hhead
      simp only [List.head?_cons, Option.some.injEq] at hhead
      exact ⟨t, hhead ▸ rfl⟩
  rw [ht] at hchar hlast
  rw [hchar]
  have hc0s : c0.sender = s := by
    have hmem : c0 ∈ calls.filter (fun c => c.sender == s) := by
      rw [ht]
      exact List.mem_cons_self _ _
    have hp := List.of_mem_filter hmem
    exact beq_iff_eq.mp hp
  obtain ⟨hsid, hrorg, hfirst, hcount, hlastseen, hdbm⟩ :=
    foldl_touchURec_fields t (freshURec c0.now c0.sender c0.rorg c0.dbm)
  refine congrArg (fun x => [x]) ?_
  apply URec.ext
  · rw [hsid]
    exact hc0s
  · rw [hrorg]
    rfl
  · rw [hfirst]
    rfl
  · rw [hlastseen]
    cases t with
    | nil =>
      simp only [List.getLast?_singleton, Option.some.injEq] at hlast
      rw [hlast]
      rfl
    | cons d t' =>
      rw [List.getLast?_cons_cons] at hlast
      rw [show ((d :: t').getLast?) = some cLast from hlast]
      rfl
  · rw [hcount]
    rw [ht, List.length_cons]
    show 1 + t.length = t.length + 1
    omega
  · rw [hdbm]
    cases t with
    | nil =>
      simp only [List.getLast?_singleton, Option.some.injEq] at hlast
      rw [hlast]
      rfl
    | cons d t' =>
      rw [List.getLast?_cons_cons] at hlast
      rw [show ((d :: t').getLast?) = some cLast from hlast]
      rfl

/-- Witness for C8 on the spec's §8.5 scenario: three telegrams from
`0x12345678` with no matching device yield one record with count 3. -/
theorem C8_unknown_sender_tracking_witness :
    (runAdds ⟨200, [], []⟩
      [{ now := "t1", sender := "0x12345678", rorg := "A5", data := "A5000055",
         status := 0, dbm := -60, device_name := none, eep_id := none,
         decoded := none, is_teach_in := false },
       { now := "t2", sender := "0x12345678", rorg := "A5", data := "A5000056",
         status := 0, dbm := -61, device_name := none, eep_id := none,
         decoded := none, is_teach_in := false },
       { now := "t3", sender := "0x12345678", rorg := "A5", data := "A5000057",
         status := 0, dbm := -70, device_name := none, eep_id := none,
         decoded := none, is_teach_in := false }]).unknown.filter
      (fun r => r.sender_id == "0x12345678") =
    [{ sender_id := "0x12345678", rorg := "A5", first_seen := "t1",
       last_seen := "t3", count := 3, dbm := -70 }] := by
  exact C8_unknown_sender_tracking "0x12345678" 200
    [{ now := "t1", sender := "0x12345678", rorg := "A5", data := "A5000055",
       status := 0, dbm := -60, device_name := none, eep_id := none,
       decoded := none, is_teach_in := false },
     { now := "t2", sender := "0x12345678", rorg := "A5", data := "A5000056",
       status := 0, dbm := -61, device_name := none, eep_id := none,
       decoded := none, is_teach_in := false },
     { now := "t3", sender := "0x12345678", rorg := "A5", data := "A5000057",
       status := 0, dbm := -70, device_name := none, eep_id := none,
       decoded := none, is_teach_in := false }] (by decide) (by decide)
    { now := "t1", sender := "0x12345678", rorg := "A5", data := "A5000055",
      status := 0, dbm := -60, device_name := none, eep_id := none,
      decoded := none, is_teach_in := false }
    { now := "t3", sender := "0x12345678", rorg := "A5", data := "A5000057",
      status := 0, dbm := -70, device_name := none, eep_id := none,
      decoded := none, is_teach_in := false } (by decide) (by decide)

/-! ## C2 — framer resynchronisation (serial_handler.py) -/

theorem run_short (f : Nat) (buf : List Nat) (h : buf.length < 6) : (run f buf).1 = [] := by
  match f, buf with
  | 0, [] => rfl
  | f + 1, [] => rfl
  | 0, b :: t => rfl
  | f + 1, b :: t =>
    simp only [run]
    rw [if_pos h]

/-- C2 (amended): on a header-CRC mismatch, and likewise on a data-CRC
mismatch of a complete frame, the parse loop discards exactly the sync
byte and continues on the remaining buffer (hunt mode); a frame with a
valid header but fewer buffered bytes than its total length produces no
packet and leaves the buffer untouched; and prepending any junk that
contains no sync byte 0x55 does not change the emitted packet
sequence. -/
theorem C2_single_byte_resync :
    (∀ (fuel : Nat) (rest : List Nat),
      ¬((SYNC_BYTE :: rest).length < 6) →
      crc8 (((SYNC_BYTE :: rest).drop 1).take 4) ≠ (SYNC_BYTE :: rest).getD 5 0 →
      run (fuel + 1) (SYNC_BYTE :: rest) = run fuel rest) ∧
    (∀ (fuel : Nat) (rest : List Nat),
      ¬((SYNC_BYTE :: rest).length < 6) →
      crc8 (((SYNC_BYTE :: rest).drop 1).take 4) = (SYNC_BYTE :: rest).getD 5 0 →
      ¬((SYNC_BYTE :: rest).length <
        6 + ((SYNC_BYTE :: rest).getD 1 0 * 256 + (SYNC_BYTE :: rest).getD 2 0) +
          (SYNC_BYTE :: rest).getD 3 0 + 1) →
      crc8 ((((SYNC_BYTE :: rest).drop 6).take
          ((SYNC_BYTE :: rest).getD 1 0 * 256 + (SYNC_BYTE :: rest).getD 2 0) ++
        (((SYNC_BYTE :: rest).drop
            (6 + ((SYNC_BYTE :: rest).getD 1 0 * 256 + (SYNC_BYTE :: rest).getD 2 0))).take
          ((SYNC_BYTE :: rest).getD 3 0)))) ≠
        (SYNC_BYTE :: rest).getD
          (6 + ((SYNC_BYTE :: rest).getD 1 0 * 256 + (SYNC_BYTE :: rest).getD 2 0) +
            (SYNC_BYTE :: rest).getD 3 0) 0 →
      run (fuel + 1) (SYNC_BYTE :: rest) = run fuel rest) ∧
    (∀ (fuel : Nat) (rest : List Nat),
      ¬((SYNC_BYTE :: rest).length < 6) →
      crc8 (((SYNC_BYTE :: rest).drop 1).take 4) = (SYNC_BYTE :: rest).getD 5 0 →
      ((SYNC_BYTE :: rest).length <
        6 + ((SYNC_BYTE :: rest).getD 1 0 * 256 + (SYNC_BYTE :: rest).getD 2 0) +
          (SYNC_BYTE :: rest).getD 3 0 + 1) →
      run (fuel + 1) (SYNC_BYTE :: rest) = ([], SYNC_BYTE :: rest)) ∧
    (∀ junk stream : List Nat, SYNC_BYTE ∉ junk →
      (framer (junk ++ stream)).1 = (framer stream).1) := by
  refine ⟨?_, ?_, ?_, ?_⟩
  · intro fuel rest h6 hcrc
    simp only [run]
    rw [if_neg h6, if_neg (fun hx : SYNC_BYTE ≠ SYNC_BYTE => hx rfl), if_pos hcrc]
  · intro fuel rest h6 hhdr hcomp hdata
    simp only [run]
    rw [if_neg h6, if_neg (fun hx : SYNC_BYTE ≠ SYNC_BYTE => hx rfl),
      if_neg (fun hx => hx hhdr), if_neg hcomp, if_pos hdata]
  · intro fuel rest h6 hhdr hinc
    simp only [run]
    rw [if_neg h6, if_neg (fun hx : SYNC_BYTE ≠ SYNC_BYTE => hx rfl),
      if_neg (fun hx => hx hhdr), if_pos hinc]
  · intro junk
    induction junk with
    | nil => intro stream _; rfl
    | cons j junk' ih =>
      intro stream hmem
      have hj : j ≠ SYNC_BYTE := fun e => hmem (e ▸ List.mem_cons_self j junk')
      have hmem' : SYNC_BYTE ∉ junk' := fun h => hmem (List.mem_cons_of_mem j h)
      show (run ((j :: (junk' ++ stream)).length) (j :: (junk' ++ stream))).1 = _
      rw [List.length_cons]
      by_cases hlen : (j :: (junk' ++ stream)).length < 6
      · have h1 : (run ((junk' ++ stream).length + 1) (j :: (junk' ++ stream))).1 = [] :=
          run_short _ _ hlen
        rw [h1]
        have h2 : (framer stream).1 = [] := by
          apply run_short
          rw [List.length_cons, List.length_append] at hlen
          omega
        rw [h2]
      · have hstep : run ((junk' ++ stream).length + 1) (j :: (junk' ++ stream)) =
            run ((junk' ++ stream).length) (junk' ++ stream) := by
          simp only [run]
          rw [if_neg hlen, if_pos hj]
        rw [hstep]
        exact ih stream hmem'

/-- C2 counterexample to the claim as stated: the one-byte prefix
`[0x55]` contains no valid frame, yet prepending it to the tail of a
valid seven-byte frame changes the emitted packets — the prefixed stream
parses to one packet while the unprefixed stream parses to none. -/
theorem C2_junk_prefix_counterexample :
    (framer ([0x55] ++ [0x00, 0x00, 0x00, 0x01, 0x07, 0x00])).1 ≠
      (framer [0x00, 0x00, 0x00, 0x01, 0x07, 0x00]).1 ∧
    (framer [0x55]).1 = [] := by
  decide

/-- Witness for C2 (amended) on concrete buffers: a wrong header CRC, a
wrong data CRC, a truncated frame, and sync-free junk before a valid
frame. -/
theorem C2_single_byte_resync_witness :
    (run 7 (SYNC_BYTE :: [0x00, 0x00, 0x00, 0x01, 0x08, 0x09]) =
      run 6 [0x00, 0x00, 0x00, 0x01, 0x08, 0x09]) ∧
    (run 7 (SYNC_BYTE :: [0x00, 0x00, 0x00, 0x01, 0x07, 0x01]) =
      run 6 [0x00, 0x00, 0x00, 0x01, 0x07, 0x01]) ∧
    (run 7 (SYNC_BYTE :: [0x00, 0x01, 0x00, 0x01, crc8 [0x00, 0x01, 0x00, 0x01], 0xAA]) =
      ([], SYNC_BYTE :: [0x00, 0x01, 0x00, 0x01, crc8 [0x00, 0x01, 0x00, 0x01], 0xAA])) ∧
    (framer ([0x01, 0x02, 0x03] ++ [0x55, 0x00, 0x00, 0x00, 0x01, 0x07, 0x00])).1 =
      (framer [0x55, 0x00, 0x00, 0x00, 0x01, 0x07, 0x00]).1 :=
  ⟨C2_single_byte_resync.1 6 _ (by decide) (by decide),
   C2_single_byte_resync.2.1 6 _ (by decide) (by decide) (by decide) (by decide),
   C2_single_byte_resync.2.2.1 6 _ (by decide) (by decide) (by decide),
   C2_single_byte_resync.2.2.2 [0x01, 0x02, 0x03] _ (by decide)⟩

/-! ## C3 — transmit/receive round trip (serial_handler.py) -/

theorem run_nil (f : Nat) : run f [] = ([], []) := by
  cases f <;> rfl

theorem parse16 (n : Nat) (h : n < 65536) :
    ((n >>> 8) &&& 0xFF) * 256 + (n &&& 0xFF) = n := by
  have h1 : n >>> 8 = n / 256 := by
    rw [Nat.shiftRight_eq_div_pow]
  have h2 : ∀ m : Nat, m &&& 0xFF = m % 256 := by
    intro m
    simpa using Nat.and_pow_two_sub_one_eq_mod m 8
  rw [h1, h2, h2]
  omega

theorem drop6_cons (a1 a2 a3 a4 a5 a6 : Nat) (body : List Nat) (X : Nat) :
    (a1 :: a2 :: a3 :: a4 :: a5 :: a6 :: body).drop (6 + X) = body.drop X := by
  rw [← List.drop_drop]
  rfl

theorem getD6_cons (a1 a2 a3 a4 a5 a6 : Nat) (body : List Nat) (X d : Nat) :
    (a1 :: a2 :: a3 :: a4 :: a5 :: a6 :: body).getD (6 + X) d = body.getD X d := by
  rw [Nat.add_comm 6 X]
  simp only [show X + 6 = (X + 5) + 1 from rfl, List.getD_cons_succ,
    show X + 5 = (X + 4) + 1 from rfl, show X + 4 = (X + 3) + 1 from rfl,
    show X + 3 = (X + 2) + 1 from rfl, show X + 2 = (X + 1) + 1 from rfl]

theorem getD_append_left_length (body : List Nat) :
    ∀ (pre : List Nat) (X d : Nat), (pre ++ body).getD (pre.length + X) d = body.getD X d := by
  intro pre
  induction pre with
  | nil =>
    intro X d
    rw [List.nil_append, List.length_nil, Nat.zero_add]
  | cons a pre' ih =>
    intro X d
    rw [List.cons_append, List.length_cons]
    rw [show pre'.length + 1 + X = (pre'.length + X) + 1 from by omega]
    rw [List.getD_cons_succ]
    exact ih X d

theorem getD_append_length (x d : Nat) : ∀ l : List Nat, (l ++ [x]).getD l.length d = x := by
  intro l
  induction l with
  | nil => rfl
  | cons a l' ih =>
    rw [List.cons_append, List.length_cons, List.getD_cons_succ]
    exact ih

/-- Parsing a well-formed ESP3 frame: sync, header `(len hi, len lo,
optional length, packet type)`, matching header CRC, data and optional
blocks, matching data CRC — the parse loop emits exactly the one packet
and consumes the whole buffer. -/
theorem framer_valid_frame (pd opt : List Nat) (pt : Nat) (hlen : pd.length < 65536) :
    framer (SYNC_BYTE :: ((pd.length >>> 8) &&& 0xFF) :: (pd.length &&& 0xFF) ::
      opt.length :: pt ::
      crc8 [(pd.length >>> 8) &&& 0xFF, pd.length &&& 0xFF, opt.length, pt] ::
      ((pd ++ opt) ++ [crc8 (pd ++ opt)])) =
    ([{ ptype := pt, pdata := pd, optional := opt }], []) := by
  generalize hHI : (pd.length >>> 8) &&& 0xFF = hi
  generalize hLO : pd.length &&& 0xFF = lo
  generalize hHC : crc8 [hi, lo, opt.length, pt] = hc
  generalize hDC : crc8 (pd ++ opt) = dc
  have hparse : hi * 256 + lo = pd.length := by
    rw [← hHI, ← hLO]
    exact parse16 pd.length hlen
  have hflen : (SYNC_BYTE :: hi :: lo :: opt.length :: pt :: hc ::
      ((pd ++ opt) ++ [dc])).length = (pd.length + opt.length + 6) + 1 := by
    simp [List.length_append, List.length_cons]
    omega
  unfold framer
  rw [hflen]
  simp only [run]
  rw [if_neg (show ¬((SYNC_BYTE :: hi :: lo :: opt.length :: pt :: hc ::
    ((pd ++ opt) ++ [dc])).length < 6) from by rw [hflen]; omega)]
  rw [if_neg (fun hx : SYNC_BYTE ≠ SYNC_BYTE => hx rfl)]
  simp only [List.getD_cons_succ, List.getD_cons_zero]
  simp only [List.drop_succ_cons, List.drop_zero, List.take_succ_cons, List.take_zero]
  rw [hparse]
  rw [if_neg (fun hx : crc8 [hi, lo, opt.length, pt] ≠ hc => hx hHC)]
  rw [if_neg (show ¬((SYNC_BYTE :: hi :: lo :: opt.length :: pt :: hc ::
    ((pd ++ opt) ++ [dc])).length < 6 + pd.length + opt.length + 1) from by
      rw [hflen]; omega)]
  rw [List.append_assoc]
  rw [List.take_left]
  rw [drop6_cons]
  rw [List.drop_left]
  rw [List.take_left]
  rw [show 6 + pd.length + opt.length = 6 + (pd.length + opt.length) from by omega]
  rw [getD6_cons]
  rw [getD_append_left_length]
  rw [getD_append_length]
  rw [if_neg (fun hx : crc8 (pd ++ opt) ≠ dc => hx hDC)]
  have hdropTot : List.drop (6 + (pd.length + opt.length))
      (hi :: lo :: opt.length :: pt :: hc :: (pd ++ (opt ++ [dc]))) = [] := by
    apply List.drop_eq_nil_of_le
    simp [List.length_append, List.length_cons]
    omega
  rw [hdropTot, run_nil]

/-- C3: for a byte-valued rorg and payload, a 32-bit sender id and
destination, and a payload short enough for the 16-bit length field, the
frame built by `send_telegram` starts with the sync byte and parses back
to exactly one RADIO_ERP1 packet whose data block is
`[rorg] ++ payload ++ sender_id(4 be) ++ [0x00]` and whose optional
block is `[0x03] ++ destination(4 be) ++ [0xFF, 0x00]`, with nothing
left in the buffer. -/
theorem C3_send_telegram_roundtrip (sender_id rorg : Nat) (data : List Nat)
    (destination : Nat) (hr : rorg < 256) (hbytes : ∀ b ∈ data, b < 256)
    (hs : sender_id < 2 ^ 32) (hd : destination < 2 ^ 32)
    (hlen : data.length + 6 < 65536) :
    (send_telegram_bytes sender_id rorg data destination).head? = some SYNC_BYTE ∧
    framer (send_telegram_bytes sender_id rorg data destination) =
      ([{ ptype := PACKET_TYPE_RADIO,
          pdata := rorg :: data ++ toBytes4 sender_id ++ [0x00],
          optional := 0x03 :: toBytes4 destination ++ [0xFF, 0x00] }], []) := by
  constructor
  · rfl
  · have hmain := framer_valid_frame (rorg :: data ++ toBytes4 sender_id ++ [0x00])
      (0x03 :: toBytes4 destination ++ [0xFF, 0x00]) PACKET_TYPE_RADIO
      (by
        simp [toBytes4, List.length_append]
        omega)
    exact hmain

/-- Witness for C3 on the §8.6 command example: rorg `D2`, payload
`0x01`, sender `0xFFAABBCC`, broadcast destination. -/
theorem C3_send_telegram_roundtrip_witness :
    (0xFFAABBCC : Nat) < 2 ^ 32 ∧ ([0x01] : List Nat).length + 6 < 65536 ∧
    framer (send_telegram_bytes 0xFFAABBCC 0xD2 [0x01] 0xFFFFFFFF) =
      ([{ ptype := 0x01,
          pdata := [0xD2, 0x01, 0xFF, 0xAA, 0xBB, 0xCC, 0x00],
          optional := [0x03, 0xFF, 0xFF, 0xFF, 0xFF, 0xFF, 0x00] }], []) := by
  refine ⟨by decide, by decide, ?_⟩
  have h := (C3_send_telegram_roundtrip 0xFFAABBCC 0xD2 [0x01] 0xFFFFFFFF (by decide)
    (by decide) (by decide) (by decide) (by decide)).2
  rw [h]
  decide

end EnoceanMqtt
